import Mathlib

/-!
Verification of the core of the `bojo` bullet-journal program: the item data
model (`bojo/db.py`), its recursive rendering engine, its serialization
(`as_dict` / `from_dict`), and the token-resolution functions of
`bojo/render_utils.py` (`parse_state`, `parse_signifier`, `parse_choice`).

Python strings are modelled as `List Char` (a Python `str` is a sequence of
Unicode code points).  Python functions that may raise are modelled with
`PyResult`.  `datetime` values are modelled by the `DateTime` structure; the
modelled domain is years 1000–9999, where CPython's `strftime`/`strptime`
behaviour for the format `'%A, %B %d, %Y at %I:%M %p'` is platform
independent.
-/

/-- Python strings as lists of Unicode code points. -/
abbrev Str := List Char

/-- Decimal digit character, `chr(48 + k)`; used with `k < 10`. -/
def digitChar (k : Nat) : Char := Char.ofNat (48 + k)

/-- Decimal rendering of a natural number, as Python `str(n)` produces. -/
def natChars (n : Nat) : Str := (Nat.repr n).data

/-- Errors raised by the modelled Python code. -/
inductive PyErr where
  | keyError (key : Str)
  | valueError (msg : Str)
  | runtimeError (msg : Str)
deriving DecidableEq, Repr

/-- Result of a Python call: a value, or a raised exception. -/
inductive PyResult (α : Type) where
  | ok (val : α)
  | error (err : PyErr)
deriving DecidableEq, Repr

/-- Map a function over the value of a successful result. -/
def PyResult.map (f : α → β) : PyResult α → PyResult β
  | .ok v => .ok (f v)
  | .error e => .error e

/-! ### `termcolor.colored`

`colored(text, color, attrs)` wraps `text` in ANSI escape sequences: the
color code first, then one code per attribute (prepended in order), with a
single reset suffix. -/

/-- ANSI escape sequence `'\x1b[' + str(n) + 'm'`. -/
def ansiEsc (n : Nat) : Str := '\x1b' :: '[' :: (natChars n ++ ['m'])

/-- termcolor's `COLORS` table. -/
def COLORS : List (Str × Nat) :=
  [("grey".data, 30), ("red".data, 31), ("green".data, 32), ("yellow".data, 33),
   ("blue".data, 34), ("magenta".data, 35), ("cyan".data, 36), ("white".data, 37)]

/-- termcolor's `ATTRIBUTES` table. -/
def ATTRIBUTES : List (Str × Nat) :=
  [("bold".data, 1), ("dark".data, 2), ("underline".data, 4), ("blink".data, 5),
   ("reverse".data, 7), ("concealed".data, 8)]

/-- Association-list lookup for the code tables (all call sites use known
keys, so the default is unreachable). -/
def lookupCode (table : List (Str × Nat)) (key : Str) : Nat :=
  match table.find? (fun p => p.1 = key) with
  | some p => p.2
  | none => 0

/-- termcolor's `RESET` suffix. -/
def RESET : Str := ansiEsc 0

/-- Model of `termcolor.colored(text, color=..., attrs=...)` (colors always
enabled; `on_color` is never used by the source). -/
def colored (text : Str) (color : Option Str) (attrs : List Str) : Str :=
  let t := match color with
    | some c => ansiEsc (lookupCode COLORS c) ++ text
    | none => text
  let t := attrs.foldl (fun acc a => ansiEsc (lookupCode ATTRIBUTES a) ++ acc) t
  t ++ RESET

/-! ### Enumerations (`bojo/db.py`) -/

/-- `ItemState` enumeration, in declared order. -/
inductive ItemState where
  | INCOMPLETE | COMPLETE | MIGRATED | SCHEDULED | IRRELEVANT | NOTE | EVENT
deriving DecidableEq, Repr

/-- The `.value` string of each `ItemState`. -/
def ItemState.value : ItemState → Str
  | .INCOMPLETE => "incomplete".data
  | .COMPLETE => "complete".data
  | .MIGRATED => "migrated".data
  | .SCHEDULED => "scheduled".data
  | .IRRELEVANT => "irrelevant".data
  | .NOTE => "note".data
  | .EVENT => "event".data

/-- Iteration order of `ItemState` (Python iterates enums in declaration
order). -/
def ItemState.declaredOrder : List ItemState :=
  [.INCOMPLETE, .COMPLETE, .MIGRATED, .SCHEDULED, .IRRELEVANT, .NOTE, .EVENT]

/-- The `ItemStates` table `(symbol, state, color)` from the source. -/
def ItemStates : List (Str × ItemState × Str) :=
  [(".".data, .INCOMPLETE, "red".data),
   ("x".data, .COMPLETE, "green".data),
   ("<".data, .MIGRATED, "blue".data),
   (">".data, .SCHEDULED, "cyan".data),
   ("i".data, .IRRELEVANT, "white".data),
   ("-".data, .NOTE, "magenta".data),
   ("o".data, .EVENT, "yellow".data)]

/-- `ItemStateColor = {x[1]: x[2] for x in ItemStates}`, as a total map. -/
def ItemStateColor : ItemState → Str
  | .INCOMPLETE => "red".data
  | .COMPLETE => "green".data
  | .MIGRATED => "blue".data
  | .SCHEDULED => "cyan".data
  | .IRRELEVANT => "white".data
  | .NOTE => "magenta".data
  | .EVENT => "yellow".data

/-- `ItemStateDict = {x[0]: x[1] for x in ItemStates}`: lookup by symbol. -/
def ItemStateDict (s : Str) : Option ItemState :=
  (ItemStates.find? (fun p => p.1 = s)).map (fun p => p.2.1)

/-- `ItemStateDictInv`: symbol of a state. -/
def ItemStateDictInv : ItemState → Str
  | .INCOMPLETE => ".".data
  | .COMPLETE => "x".data
  | .MIGRATED => "<".data
  | .SCHEDULED => ">".data
  | .IRRELEVANT => "i".data
  | .NOTE => "-".data
  | .EVENT => "o".data

/-- Python `ItemState(s)`: the state whose `.value` equals `s`, if any. -/
def ItemState.ofValue? (s : Str) : Option ItemState :=
  ItemState.declaredOrder.find? (fun t => t.value = s)

/-- `ItemSignifier` enumeration, in declared order. -/
inductive ItemSignifier where
  | PRIORITY | INSPIRATION
deriving DecidableEq, Repr

/-- The `.value` string of each `ItemSignifier`. -/
def ItemSignifier.value : ItemSignifier → Str
  | .PRIORITY => "priority".data
  | .INSPIRATION => "inspiration".data

/-- Iteration order of `ItemSignifier`. -/
def ItemSignifier.declaredOrder : List ItemSignifier := [.PRIORITY, .INSPIRATION]

/-- `ItemSignifierDict = {'*': PRIORITY, '!': INSPIRATION}`: lookup by
symbol. -/
def ItemSignifierDict (s : Str) : Option ItemSignifier :=
  if s = "*".data then some .PRIORITY
  else if s = "!".data then some .INSPIRATION
  else none

/-- `ItemSignifierDictInv`: symbol of a signifier. -/
def ItemSignifierDictInv : ItemSignifier → Str
  | .PRIORITY => "*".data
  | .INSPIRATION => "!".data

/-- Python `ItemSignifier(s)`. -/
def ItemSignifier.ofValue? (s : Str) : Option ItemSignifier :=
  ItemSignifier.declaredOrder.find? (fun t => t.value = s)

/-! ### Datetimes and `Item.TIME_FORMAT`

`Item.TIME_FORMAT = '%A, %B %d, %Y at %I:%M %p'`.  `__format_time` uses
`datetime.strftime`, `__from_time` uses `datetime.strptime`.  Both are
modelled by interpreters over the format string for the directives the
format uses. -/

/-- A Python `datetime` (microseconds are not modelled; the source never
constructs datetimes with sub-second components other than via `strptime`,
which zeroes them). -/
structure DateTime where
  year : Nat
  month : Nat
  day : Nat
  hour : Nat
  minute : Nat
  second : Nat
deriving DecidableEq, Repr

/-- Gregorian leap-year rule. -/
def isLeap (y : Nat) : Bool := (y % 4 = 0 && y % 100 != 0) || y % 400 = 0

/-- Days in a month of the Gregorian calendar. -/
def daysInMonth (y m : Nat) : Nat :=
  match m with
  | 1 => 31 | 3 => 31 | 5 => 31 | 7 => 31 | 8 => 31 | 10 => 31 | 12 => 31
  | 4 => 30 | 6 => 30 | 9 => 30 | 11 => 30
  | 2 => if isLeap y then 29 else 28
  | _ => 0

/-- The modelled domain of datetimes: valid Gregorian dates with a four-digit
year (where `%Y` output is platform independent). -/
def validDT (t : DateTime) : Bool :=
  1000 ≤ t.year && t.year ≤ 9999 && 1 ≤ t.month && t.month ≤ 12 &&
  1 ≤ t.day && t.day ≤ daysInMonth t.year t.month &&
  t.hour < 24 && t.minute < 60 && t.second < 60

/-- Day of week by Zeller's congruence for the Gregorian calendar:
`0 = Saturday, 1 = Sunday, ..., 6 = Friday`. -/
def dayOfWeek (y m d : Nat) : Nat :=
  let y' := if m ≤ 2 then y - 1 else y
  let m' := if m ≤ 2 then m + 12 else m
  let K := y' % 100
  let J := y' / 100
  (d + 13 * (m' + 1) / 5 + K + K / 4 + J / 4 + 5 * J) % 7

/-- Full English weekday name for a Zeller index. -/
def weekdayName (h : Nat) : Str :=
  match h with
  | 0 => "Saturday".data
  | 1 => "Sunday".data
  | 2 => "Monday".data
  | 3 => "Tuesday".data
  | 4 => "Wednesday".data
  | 5 => "Thursday".data
  | _ => "Friday".data

/-- Full English month name (months `1`–`12`). -/
def monthName (m : Nat) : Str :=
  match m with
  | 1 => "January".data
  | 2 => "February".data
  | 3 => "March".data
  | 4 => "April".data
  | 5 => "May".data
  | 6 => "June".data
  | 7 => "July".data
  | 8 => "August".data
  | 9 => "September".data
  | 10 => "October".data
  | 11 => "November".data
  | 12 => "December".data
  | _ => [] 

/-- Month names in order, for `%B` parsing. -/
def monthNames : List Str :=
  ["January".data, "February".data, "March".data, "April".data, "May".data,
   "June".data, "July".data, "August".data, "September".data, "October".data,
   "November".data, "December".data]

/-- Weekday names in order, for `%A` parsing. -/
def weekdayNames : List Str :=
  ["Monday".data, "Tuesday".data, "Wednesday".data, "Thursday".data,
   "Friday".data, "Saturday".data, "Sunday".data]

/-- Two-digit zero-padded decimal, as `%d`, `%I`, `%M` produce for values
below 100 (all uses are below 100). -/
def pad2 (n : Nat) : Str := [digitChar (n / 10), digitChar (n % 10)]

/-- Four-digit decimal, as `%Y` produces for four-digit years. -/
def pad4 (n : Nat) : Str :=
  [digitChar (n / 1000), digitChar (n / 100 % 10), digitChar (n / 10 % 10),
   digitChar (n % 10)]

/-- The hour shown by `%I`: 12-hour clock. -/
def hour12 (h : Nat) : Nat := if h % 12 = 0 then 12 else h % 12

/-- One `strftime` directive of `TIME_FORMAT`. -/
def strftimeDirective (c : Char) (t : DateTime) : Str :=
  match c with
  | 'A' => weekdayName (dayOfWeek t.year t.month t.day)
  | 'B' => monthName t.month
  | 'd' => pad2 t.day
  | 'Y' => pad4 t.year
  | 'I' => pad2 (hour12 t.hour)
  | 'M' => pad2 t.minute
  | 'p' => if t.hour < 12 then "AM".data else "PM".data
  | c => ['%', c]

/-- `datetime.strftime` restricted to the directives of `TIME_FORMAT`. -/
def strftime (fmt : Str) (t : DateTime) : Str :=
  match fmt with
  | [] => []
  | '%' :: c :: rest => strftimeDirective c t ++ strftime rest t
  | '%' :: [] => ['%']
  | c :: rest => c :: strftime rest t

/-- Fields accumulated by `strptime` (defaults as in CPython's
`_strptime`). -/
structure TParts where
  year : Nat := 1900
  month : Nat := 1
  day : Nat := 1
  hr12 : Nat := 12
  minute : Nat := 0
  isPM : Bool := false
deriving DecidableEq, Repr

/-- Drop a concrete pattern from the front of the input, or fail. -/
def dropPfx : Str → Str → Option Str
  | [], s => some s
  | _ :: _, [] => none
  | p :: ps, c :: cs => if p = c then dropPfx ps cs else none

/-- Match one of a list of names against the front of the input; returns the
1-based index of the matched name and the rest of the input. -/
def matchName : List Str → Str → Option (Nat × Str)
  | [], _ => none
  | n :: ns, s =>
    match dropPfx n s with
    | some rest => some (1, rest)
    | none => (matchName ns s).map (fun p => (p.1 + 1, p.2))

/-- Decimal digit value of a character, if it is a digit. -/
def digitVal? (c : Char) : Option Nat :=
  if '0' ≤ c ∧ c ≤ '9' then some (c.toNat - 48) else none

/-- Read one or two digits greedily (as the `%d`, `%I`, `%M` patterns do). -/
def parse2 : Str → Option (Nat × Str)
  | [] => none
  | c :: rest =>
    match digitVal? c with
    | none => none
    | some v =>
      match rest with
      | [] => some (v, [])
      | c2 :: rest2 =>
        match digitVal? c2 with
        | some v2 => some (10 * v + v2, rest2)
        | none => some (v, rest)

/-- Read exactly four digits (the `%Y` pattern). -/
def parse4 : Str → Option (Nat × Str)
  | a :: b :: c :: d :: rest => do
    let v1 ← digitVal? a
    let v2 ← digitVal? b
    let v3 ← digitVal? c
    let v4 ← digitVal? d
    some (1000 * v1 + 100 * v2 + 10 * v3 + v4, rest)
  | _ => none

/-- The matching loop of `strptime`: walk the format, consuming the input;
any unconverted trailing data is an error. -/
def strptimeAux : Str → Str → TParts → Option TParts
  | [], s, acc => if s = [] then some acc else none
  | c :: fr, s, acc =>
    if c = '%' then
      match fr with
      | [] => none
      | d :: fr2 =>
        if d = 'A' then
          match matchName weekdayNames s with
          | some (_, rest) => strptimeAux fr2 rest acc
          | none => none
        else if d = 'B' then
          match matchName monthNames s with
          | some (m, rest) => strptimeAux fr2 rest { acc with month := m }
          | none => none
        else if d = 'd' then
          match parse2 s with
          | some (v, rest) =>
            if 1 ≤ v ∧ v ≤ 31 then strptimeAux fr2 rest { acc with day := v }
            else none
          | none => none
        else if d = 'Y' then
          match parse4 s with
          | some (v, rest) => strptimeAux fr2 rest { acc with year := v }
          | none => none
        else if d = 'I' then
          match parse2 s with
          | some (v, rest) =>
            if 1 ≤ v ∧ v ≤ 12 then strptimeAux fr2 rest { acc with hr12 := v }
            else none
          | none => none
        else if d = 'M' then
          match parse2 s with
          | some (v, rest) =>
            if v ≤ 59 then strptimeAux fr2 rest { acc with minute := v }
            else none
          | none => none
        else if d = 'p' then
          match dropPfx "AM".data s with
          | some rest => strptimeAux fr2 rest { acc with isPM := false }
          | none =>
            match dropPfx "PM".data s with
            | some rest => strptimeAux fr2 rest { acc with isPM := true }
            | none => none
        else none
    else
      match s with
      | [] => none
      | c2 :: sr => if c = c2 then strptimeAux fr sr acc else none

/-- `datetime.strptime` restricted to the directives of `TIME_FORMAT`:
matches the whole input, converts the 12-hour clock, and validates the date
as the `datetime` constructor does.  Seconds are zero (the format has no
`%S`). -/
def strptime (fmt s : Str) : Option DateTime :=
  match strptimeAux fmt s {} with
  | none => none
  | some p =>
    let hour := if p.isPM then (if p.hr12 = 12 then 12 else p.hr12 + 12)
                else (if p.hr12 = 12 then 0 else p.hr12)
    if 1 ≤ p.year ∧ p.day ≤ daysInMonth p.year p.month then
      some ⟨p.year, p.month, p.day, hour, p.minute, 0⟩
    else none

/-- `Item.TIME_FORMAT` from the source. -/
def TIME_FORMAT : Str := "%A, %B %d, %Y at %I:%M %p".data

/-- `Item.__format_time` on a present datetime. -/
def formatTime (t : DateTime) : Str := strftime TIME_FORMAT t

/-! ### The `Item` entity and its render engine (`bojo/db.py`) -/

/-- An `Item` row together with its (ordered) children. -/
inductive Item where
  | mk (id : Option Nat) (description : Str) (state : ItemState)
       (signifier : Option ItemSignifier) (time : Option DateTime)
       (time_created : Option DateTime) (time_updated : Option DateTime)
       (parent_id : Option Nat) (children : List Item)

/-- The `id` column. -/
def Item.id : Item → Option Nat
  | .mk i _ _ _ _ _ _ _ _ => i

/-- The `description` column. -/
def Item.description : Item → Str
  | .mk _ d _ _ _ _ _ _ _ => d

/-- The `state` column. -/
def Item.state : Item → ItemState
  | .mk _ _ s _ _ _ _ _ _ => s

/-- The `signifier` column. -/
def Item.signifier : Item → Option ItemSignifier
  | .mk _ _ _ g _ _ _ _ _ => g

/-- The `time` column. -/
def Item.time : Item → Option DateTime
  | .mk _ _ _ _ t _ _ _ _ => t

/-- The `time_created` column. -/
def Item.time_created : Item → Option DateTime
  | .mk _ _ _ _ _ t _ _ _ => t

/-- The `time_updated` column. -/
def Item.time_updated : Item → Option DateTime
  | .mk _ _ _ _ _ _ t _ _ => t

/-- The `parent_id` column. -/
def Item.parent_id : Item → Option Nat
  | .mk _ _ _ _ _ _ _ p _ => p

/-- The `children` relationship. -/
def Item.children : Item → List Item
  | .mk _ _ _ _ _ _ _ _ c => c

/-- `Item.RenderOpts` with its `NamedTuple` fields. -/
structure RenderOpts where
  show_children : Bool
  show_complete_children : Bool
  verbose_mode : Bool
deriving DecidableEq, Repr

/-- The single line `render` composes for an item itself (the value of `rep`
just before child handling): colored description, prefixed by the state
symbol, then the signifier symbol (the whole so-far bolded for `PRIORITY`),
then the dim formatted time appended, then the underlined id prepended. -/
def Item.renderLine (item : Item) (verbose_mode : Bool) : Str :=
  let color := ItemStateColor item.state
  let rep := colored item.description (some color) []
  let state_symbol := ItemStateDictInv item.state
  let state_symbol :=
    if verbose_mode then state_symbol ++ " (".data ++ item.state.value ++ ")".data
    else state_symbol
  let rep := state_symbol ++ " ".data ++ rep
  let rep :=
    match item.signifier with
    | none => rep
    | some sig =>
      let signifier_symbol := ItemSignifierDictInv sig
      let signifier_symbol :=
        if verbose_mode then signifier_symbol ++ " (".data ++ sig.value ++ ")".data
        else signifier_symbol
      let rep := signifier_symbol ++ " ".data ++ rep
      if sig = ItemSignifier.PRIORITY then colored rep none ["bold".data] else rep
  let rep :=
    match item.time with
    | none => rep
    | some t => rep ++ " ".data ++ colored (formatTime t) none ["dark".data]
  match item.id with
  | none => rep
  | some i => colored (natChars i) none ["underline".data] ++ " ".data ++ rep

/-- Python `s.split('\n')` for the single-character separator. -/
def splitNl : Str → List Str
  | [] => [[]]
  | c :: rest =>
    if c = '\n' then [] :: splitNl rest
    else
      match splitNl rest with
      | l :: ls => (c :: l) :: ls
      | [] => [[c]]

/-- Python `'\n'.join(lines)`. -/
def joinNl : List Str → Str
  | [] => []
  | [l] => l
  | l :: ls => l ++ '\n' :: joinNl ls

mutual

/-- `Item.render(self, **kwargs)`.  The keyword arguments `show_children`,
`show_complete_children` and `verbose_mode` are each either supplied
(`some`) or omitted (`none`); `env_verbose` is the value of
`should_use_verbose()` (the `BOJO_VERBOSE` environment toggle), consulted
only when `verbose_mode` is omitted.  The remaining defaults come from
`RenderOpts`. -/
def Item.render (item : Item) (show_children show_complete_children
    verbose_mode : Option Bool) (env_verbose : Bool) : Str :=
  match item with
  | .mk id desc st sg t tc tu pid children =>
    let vm := verbose_mode.getD env_verbose
    let render_opts : RenderOpts :=
      ⟨show_children.getD true, show_complete_children.getD true, vm⟩
    let item' : Item := .mk id desc st sg t tc tu pid children
    let rep := item'.renderLine render_opts.verbose_mode
    let reps := rep ::
      (if render_opts.show_children then
        Item.renderChildren children render_opts env_verbose
      else [])
    joinNl reps

/-- The child loop of `render`: each child whose state is `COMPLETE` is
skipped when `show_complete_children` is false; otherwise the child's full
rendering (via `child.render(**render_opts._asdict())`) is indented two
spaces on every line. -/
def Item.renderChildren (children : List Item) (render_opts : RenderOpts)
    (env_verbose : Bool) : List Str :=
  match children with
  | [] => []
  | child :: rest =>
    if child.state = ItemState.COMPLETE ∧ ¬render_opts.show_complete_children then
      Item.renderChildren rest render_opts env_verbose
    else
      let sub_rep := child.render (some render_opts.show_children)
        (some render_opts.show_complete_children)
        (some render_opts.verbose_mode) env_verbose
      joinNl ((splitNl sub_rep).map (fun c => "  ".data ++ c)) ::
        Item.renderChildren rest render_opts env_verbose

end

/-! ### Serialization (`Item.as_dict` / `Item.from_dict`) -/

/-- The dictionary `as_dict` produces / `from_dict` consumes.  A field is
`none` exactly when its key is absent from the Python dict. -/
structure Record where
  id : Option Nat
  description : Option Str
  state : Option Str
  signifier : Option Str
  time : Option Str
  time_created : Option Str
  time_updated : Option Str
  parent_id : Option Nat
deriving DecidableEq, Repr

/-- `Item.as_dict`: emit each column, formatting times and taking enum
values, then drop every `None` entry (`isinstance(self.parent_id, int)`
is `parent_id` presence). -/
def Item.as_dict (item : Item) : Record :=
  { id := item.id
    description := some item.description
    state := some item.state.value
    signifier := item.signifier.map ItemSignifier.value
    time := item.time.map formatTime
    time_created := item.time_created.map formatTime
    time_updated := item.time_updated.map formatTime
    parent_id := item.parent_id }

/-- `Item.__from_time`: `None` for an absent or empty (falsy) string, else
`strptime`, which raises `ValueError` on a mismatch. -/
def fromTime (s : Option Str) : PyResult (Option DateTime) :=
  match s with
  | none => .ok none
  | some s =>
    if s = [] then .ok none
    else
      match strptime TIME_FORMAT s with
      | some t => .ok (some t)
      | none => .error (.valueError ("time data does not match format".data))

/-- The `signifier` argument of `from_dict`:
`ItemSignifier(d['signifier']) if 'signifier' in d else None`. -/
def sigFromDict (s : Option Str) : PyResult (Option ItemSignifier) :=
  match s with
  | none => .ok none
  | some v =>
    match ItemSignifier.ofValue? v with
    | some g => .ok (some g)
    | none => .error (.valueError ("is not a valid ItemSignifier".data))

/-- `Item.from_dict`: required keys `id`, `description`, `state` (a missing
key raises `KeyError`), strict enum parsing, optional times and
`parent_id`.  Arguments are evaluated in the source's order; the first
exception wins.  The constructed item has no children. -/
def Item.from_dict (r : Record) : PyResult Item :=
  match r.id with
  | none => .error (.keyError "id".data)
  | some i =>
    match r.description with
    | none => .error (.keyError "description".data)
    | some desc =>
      match r.state with
      | none => .error (.keyError "state".data)
      | some stS =>
        match ItemState.ofValue? stS with
        | none => .error (.valueError ("is not a valid ItemState".data))
        | some st =>
          match sigFromDict r.signifier with
          | .error e => .error e
          | .ok sg =>
            match fromTime r.time with
            | .error e => .error e
            | .ok t =>
              match fromTime r.time_created with
              | .error e => .error e
              | .ok tc =>
                match fromTime r.time_updated with
                | .error e => .error e
                | .ok tu =>
                  .ok (.mk (some i) desc st sg t tc tu r.parent_id [])

/-! ### Token resolution (`bojo/render_utils.py`) -/

/-- `NONE_STR`. -/
def NONE_STR : Str := "none".data

/-- `ALL_STR`. -/
def ALL_STR : Str := "all".data

/-- `ALL_CHOICES`: state symbols, signifier symbols, state values, signifier
values, and the `none` sentinel, in that order. -/
def ALL_CHOICES : List Str :=
  (ItemStates.map (fun p => p.1)) ++ ["*".data, "!".data] ++
  (ItemState.declaredOrder.map ItemState.value) ++
  (ItemSignifier.declaredOrder.map ItemSignifier.value) ++ [NONE_STR]

/-- Python whitespace characters stripped by `str.strip()` (the ASCII
ones; tokens in this program are ASCII). -/
def isPySpace (c : Char) : Bool :=
  c = ' ' || c = '\t' || c = '\n' || c = '\r' || c = '\x0b' || c = '\x0c'

/-- `s.strip()`. -/
def pyStrip (s : Str) : Str :=
  ((s.dropWhile isPySpace).reverse.dropWhile isPySpace).reverse

/-- The normalization `s.strip().lower().replace('\n', ' ')` shared by
`parse_state` and `parse_signifier`. -/
def pyNormalize (s : Str) : Str :=
  ((pyStrip s).map Char.toLower).map (fun c => if c = '\n' then ' ' else c)

/-- The options listing in `parse_state`'s error message:
`''.join(f'\n  {k}: {v.value}' for k, v in ItemStateDict.items())`. -/
def stateOptsListing : Str :=
  (ItemStates.map (fun p =>
    '\n' :: ' ' :: ' ' :: (p.1 ++ ": ".data ++ p.2.1.value))).flatten

/-- `parse_state`: normalize, then symbol lookup, then exact full-value
lookup, else `RuntimeError` with the options listing. -/
def parse_state (state : Str) : PyResult ItemState :=
  let state := pyNormalize state
  match ItemStateDict state with
  | some t => .ok t
  | none =>
    if (ItemState.declaredOrder.any (fun v => v.value = state)) then
      match ItemState.ofValue? state with
      | some t => .ok t
      | none => .error (.valueError "unreachable".data)
    else
      .error (.runtimeError ("Invalid state ".data ++ state ++
        ". Options are:".data ++ stateOptsListing))

/-- The options listing in `parse_signifier`'s error message. -/
def signifierOptsListing : Str :=
  '\n' :: ' ' :: ' ' :: '*' :: ':' :: ' ' :: "priority".data ++
  ('\n' :: ' ' :: ' ' :: '!' :: ':' :: ' ' :: "inspiration".data)

/-- `parse_signifier`: normalize; the `none` sentinel clears the signifier;
else symbol lookup, then exact full-value lookup, else `RuntimeError`. -/
def parse_signifier (signifier : Str) : PyResult (Option ItemSignifier) :=
  let signifier := pyNormalize signifier
  if signifier ≠ NONE_STR then
    match ItemSignifierDict signifier with
    | some g => .ok (some g)
    | none =>
      if (ItemSignifier.declaredOrder.any (fun v => v.value = signifier)) then
        match ItemSignifier.ofValue? signifier with
        | some g => .ok (some g)
        | none => .error (.valueError "unreachable".data)
      else
        .error (.runtimeError ("Invalid signifier ".data ++ signifier ++
          ". Options are:".data ++ signifierOptsListing))
  else
    .ok none

/-- The `InvalidChoice` error of `parse_choice`:
`ValueError(f'Invalid choice: {s}. Options are {opts}')` with `opts` the
comma-joined `ALL_CHOICES`. -/
def invalidChoice (s : Str) : PyErr :=
  .valueError ("Invalid choice: ".data ++ s ++ ". Options are ".data ++
    List.intercalate ", ".data ALL_CHOICES)

/-- `parse_choice`: sentinel, then symbol dictionaries, then exact enum
values (`ItemState` before `ItemSignifier`), then — only for tokens of
length at least 3 — prefix matching in declared enum order, else
`InvalidChoice`.  Note: no normalization is applied. -/
def parse_choice (s : Str) : PyResult (Option (ItemState ⊕ ItemSignifier)) :=
  if s = NONE_STR ∨ s = ALL_STR then .ok none
  else
    match ItemStateDict s with
    | some t => .ok (some (.inl t))
    | none =>
      match ItemSignifierDict s with
      | some g => .ok (some (.inr g))
      | none =>
        match ItemState.ofValue? s with
        | some t => .ok (some (.inl t))
        | none =>
          match ItemSignifier.ofValue? s with
          | some g => .ok (some (.inr g))
          | none =>
            if 3 ≤ s.length then
              match ItemState.declaredOrder.find? (fun t => s.isPrefixOf t.value) with
              | some t => .ok (some (.inl t))
              | none =>
                match ItemSignifier.declaredOrder.find?
                    (fun g => s.isPrefixOf g.value) with
                | some g => .ok (some (.inr g))
                | none => .error (invalidChoice s)
            else .error (invalidChoice s)

/-! ### Specification-side definitions

These follow the spec's wording, to be compared with the definitions
translated from the source. -/

/-- Spec §4.1 step 3: single-character symbol lookup, statuses before
signifiers. -/
def specSymbolLookup (s : Str) : Option (ItemState ⊕ ItemSignifier) :=
  match ItemStateDict s with
  | some t => some (.inl t)
  | none => (ItemSignifierDict s).map .inr

/-- Spec §4.1 step 4: exact full-value lookup, statuses before
signifiers. -/
def specExactLookup (s : Str) : Option (ItemState ⊕ ItemSignifier) :=
  match ItemState.ofValue? s with
  | some t => some (.inl t)
  | none => (ItemSignifier.ofValue? s).map .inr

/-- Spec §4.1 step 5: the first status in declared enum order whose full
value starts with the token, else the first such signifier. -/
def specPrefixLookup (s : Str) : Option (ItemState ⊕ ItemSignifier) :=
  match ItemState.declaredOrder.find? (fun t => s.isPrefixOf t.value) with
  | some t => some (.inl t)
  | none =>
    (ItemSignifier.declaredOrder.find? (fun g => s.isPrefixOf g.value)).map .inr

/-- The spec's resolution algorithm (§4.1 steps 2–6) applied to the raw
token, i.e. with step 1 (normalization) omitted. -/
def specResolveUnnormalized (s : Str) : PyResult (Option (ItemState ⊕ ItemSignifier)) :=
  if s = NONE_STR ∨ s = ALL_STR then .ok none
  else
    match specSymbolLookup s with
    | some r => .ok (some r)
    | none =>
      match specExactLookup s with
      | some r => .ok (some r)
      | none =>
        if 3 ≤ s.length then
          match specPrefixLookup s with
          | some r => .ok (some r)
          | none => .error (invalidChoice s)
        else .error (invalidChoice s)

/-- Reachability from `root` through children none of whom is `COMPLETE`
(the root's own state is unconstrained): the nodes the spec says survive
`show_complete_children = false`. -/
inductive ReachNC : Item → Item → Prop where
  | refl (i : Item) : ReachNC i i
  | step (i c x : Item) : c ∈ i.children → c.state ≠ ItemState.COMPLETE →
      ReachNC c x → ReachNC i x

mutual

/-- The depth-tagged list of nodes whose line `render` emits under
`show_children = true, show_complete_children = false`: the node itself,
then the pruned subtrees of its non-`COMPLETE` children. -/
def Item.prunedNodesD (d : Nat) (item : Item) : List (Nat × Item) :=
  match item with
  | .mk id desc st sg t tc tu pid children =>
    (d, Item.mk id desc st sg t tc tu pid children) ::
      Item.prunedList (d + 1) children

/-- The child loop of `prunedNodesD`: skip `COMPLETE` children entirely. -/
def Item.prunedList (d : Nat) : List Item → List (Nat × Item)
  | [] => []
  | c :: cs =>
    (if c.state = ItemState.COMPLETE then [] else Item.prunedNodesD d c) ++
      Item.prunedList d cs

end

mutual

/-- Whether every line the tree can contribute is newline-free (true
whenever no description embeds a newline). -/
def Item.linesOk (vm : Bool) (item : Item) : Bool :=
  match item with
  | .mk id desc st sg t tc tu pid children =>
    (!(Item.renderLine (.mk id desc st sg t tc tu pid children) vm).contains '\n') &&
      Item.linesOkList vm children

/-- `linesOk` over a list of children. -/
def Item.linesOkList (vm : Bool) : List Item → Bool
  | [] => true
  | c :: cs => Item.linesOk vm c && Item.linesOkList vm cs

end

/-- The childless-item line grammar of spec §4.2, composed left to right:
the underlined id when persisted, then the signifier symbol (if any), the
status symbol, and the status-colored description — that middle group
bolded whole when the signifier is Priority — then the dim formatted time
when present, single-space separated. -/
def specChildlessLine (item : Item) (vm : Bool) : Str :=
  (match item.id with
   | none => []
   | some i => colored (natChars i) none ["underline".data] ++ " ".data) ++
  (let sigPart :=
     match item.signifier with
     | none => []
     | some g =>
       (if vm then ItemSignifierDictInv g ++ " (".data ++ g.value ++ ")".data
        else ItemSignifierDictInv g) ++ " ".data
   let stPart :=
     if vm then ItemStateDictInv item.state ++ " (".data ++
       item.state.value ++ ")".data
     else ItemStateDictInv item.state
   let core := sigPart ++ stPart ++ " ".data ++
     colored item.description (some (ItemStateColor item.state)) []
   if item.signifier = some .PRIORITY then colored core none ["bold".data]
   else core) ++
  (match item.time with
   | none => []
   | some t => " ".data ++ colored (formatTime t) none ["dark".data])

/-- A serializable optional timestamp: absent, or a valid modelled datetime
on a whole minute (the serialization format has no seconds field). -/
def dtOk : Option DateTime → Bool
  | none => true
  | some t => validDT t && t.second == 0

/-! ## Claims -/

/-- C9: the `none` sentinel is accepted by `parse_signifier` (clearing the
signifier) and by `parse_choice` (meaning no filter), but `parse_state` does
not treat it as a sentinel and fails with the status-taxonomy
`RuntimeError`. -/
theorem c9_none_sentinel :
    parse_signifier "none".data = .ok none ∧
    parse_choice "none".data = .ok none ∧
    parse_state "none".data = .error (.runtimeError
      ("Invalid state none. Options are:\n  .: incomplete\n  x: complete\n  <: migrated\n  >: scheduled\n  i: irrelevant\n  -: note\n  o: event".data)) := by
  decide

/-- C4 (counterexample): `parse_choice` applies no normalization, so
resolving the raw token `'  INCOMPLETE '` is not the same as resolving its
normalized form `'incomplete'`: the raw token fails with `InvalidChoice`
while the normalized form resolves to `INCOMPLETE`. -/
theorem c4_counterexample :
    parse_choice "  INCOMPLETE ".data ≠
      parse_choice (pyNormalize "  INCOMPLETE ".data) ∧
    parse_choice (pyNormalize "  INCOMPLETE ".data) =
      .ok (some (.inl ItemState.INCOMPLETE)) ∧
    parse_choice "  INCOMPLETE ".data =
      .error (invalidChoice "  INCOMPLETE ".data) := by
  refine ⟨by decide, by decide, ?_⟩
  set_option maxRecDepth 4000 in decide

/-- C4 (amended): `parse_choice` matches the raw token, with no
normalization step: it implements the spec's resolution algorithm with
step 1 (trim/lowercase/newline collapse) omitted.  Only `parse_state` and
`parse_signifier` normalize their token. -/
theorem c4_amended_no_normalization (s : Str) :
    parse_choice s = specResolveUnnormalized s := by
  cases hs : ItemStateDict s <;> cases hg : ItemSignifierDict s <;>
    cases hv : ItemState.ofValue? s <;> cases hw : ItemSignifier.ofValue? s <;>
    cases hp : ItemState.declaredOrder.find? (fun t => s.isPrefixOf t.value) <;>
    cases hq : ItemSignifier.declaredOrder.find? (fun g => s.isPrefixOf g.value) <;>
    simp [parse_choice, specResolveUnnormalized, specSymbolLookup,
      specExactLookup, specPrefixLookup, hs, hg, hv, hw, hp, hq]

/-- C2: a token that is not a sentinel, not a symbol, and not an exact enum
value resolves by prefix matching exactly when its length is at least 3:
the first status in declared enum order whose full value starts with it,
else the first such signifier, else (or when shorter than 3) the
`InvalidChoice` error. -/
theorem c2_prefix_matching (s : Str)
    (h1 : s ≠ NONE_STR) (h2 : s ≠ ALL_STR)
    (h3 : ItemStateDict s = none) (h4 : ItemSignifierDict s = none)
    (h5 : ItemState.ofValue? s = none) (h6 : ItemSignifier.ofValue? s = none) :
    parse_choice s =
      if 3 ≤ s.length then
        match ItemState.declaredOrder.find? (fun t => s.isPrefixOf t.value) with
        | some t => .ok (some (.inl t))
        | none =>
          match ItemSignifier.declaredOrder.find? (fun g => s.isPrefixOf g.value) with
          | some g => .ok (some (.inr g))
          | none => .error (invalidChoice s)
      else .error (invalidChoice s) := by
  unfold parse_choice
  rw [if_neg (by tauto), h3, h4, h5, h6]

/-- C2 (witness): `"comp"` satisfies the hypotheses and, having length at
least 3, resolves by prefix to `COMPLETE`; `"co"` satisfies them too and,
having length below 3, fails with `InvalidChoice`. -/
theorem c2_prefix_matching_witness :
    parse_choice "comp".data = .ok (some (.inl ItemState.COMPLETE)) ∧
    parse_choice "co".data = .error (invalidChoice "co".data) := by
  constructor
  · rw [c2_prefix_matching "comp".data (by decide) (by decide) (by decide)
      (by decide) (by decide) (by decide)]
    decide
  · rw [c2_prefix_matching "co".data (by decide) (by decide) (by decide)
      (by decide) (by decide) (by decide)]
    decide

/-- C7: `parse_state` and `parse_signifier` never fall back to prefix
matching: whenever the normalized token is neither a symbol nor an exact
full value of the respective enum family (in particular for every proper
prefix such as `"comp"`), they fail with their taxonomy-specific
`RuntimeError`. -/
theorem c7_strict_resolvers (s : Str)
    (h1 : ItemStateDict (pyNormalize s) = none)
    (h2 : ItemState.declaredOrder.any (fun v => v.value = pyNormalize s) = false)
    (h3 : pyNormalize s ≠ NONE_STR)
    (h4 : ItemSignifierDict (pyNormalize s) = none)
    (h5 : ItemSignifier.declaredOrder.any (fun v => v.value = pyNormalize s) = false) :
    parse_state s = .error (.runtimeError ("Invalid state ".data ++
      pyNormalize s ++ ". Options are:".data ++ stateOptsListing)) ∧
    parse_signifier s = .error (.runtimeError ("Invalid signifier ".data ++
      pyNormalize s ++ ". Options are:".data ++ signifierOptsListing)) := by
  constructor
  · simp only [parse_state, h1, h2]
    simp
  · simp only [parse_signifier, h4, h5]
    rw [if_pos h3]
    simp

/-- C7 (witness): `"comp"`, a length-3 proper prefix of `"complete"`, is
rejected by both strict resolvers. -/
theorem c7_strict_resolvers_witness :
    parse_state "comp".data = .error (.runtimeError ("Invalid state ".data ++
      pyNormalize "comp".data ++ ". Options are:".data ++ stateOptsListing)) ∧
    parse_signifier "comp".data = .error (.runtimeError
      ("Invalid signifier ".data ++ pyNormalize "comp".data ++
        ". Options are:".data ++ signifierOptsListing)) :=
  c7_strict_resolvers "comp".data (by decide) (by decide) (by decide)
    (by decide) (by decide)

/-- C5 (counterexample): `TIME_FORMAT` uses the zero-padded `%d` and `%I`
directives, so June 9 2023 14:05 does not format with non-zero-padded day
and hour as the claim's example string says; it formats with `09` and
`02`. -/
theorem c5_counterexample :
    formatTime ⟨2023, 6, 9, 14, 5, 0⟩ ≠
      "Friday, June 9, 2023 at 2:05 PM".data ∧
    formatTime ⟨2023, 6, 9, 14, 5, 0⟩ =
      "Friday, June 09, 2023 at 02:05 PM".data := by
  decide

/-- C5 (amended): the formatted time is the full weekday name, full month
name, two-digit zero-padded day, four-digit year, and 12-hour time with
two-digit zero-padded hour plus AM/PM; June 9 2023 14:05 formats exactly as
`"Friday, June 09, 2023 at 02:05 PM"`. -/
theorem c5_amended_time_format :
    (∀ t : DateTime, formatTime t =
      weekdayName (dayOfWeek t.year t.month t.day) ++ ", ".data ++
      monthName t.month ++ " ".data ++ pad2 t.day ++ ", ".data ++
      pad4 t.year ++ " at ".data ++ pad2 (hour12 t.hour) ++ ":".data ++
      pad2 t.minute ++ " ".data ++
      (if t.hour < 12 then "AM".data else "PM".data)) ∧
    formatTime ⟨2023, 6, 9, 14, 5, 0⟩ =
      "Friday, June 09, 2023 at 02:05 PM".data := by
  constructor
  · intro t
    simp [formatTime, TIME_FORMAT, strftime, strftimeDirective]
  · decide

/-- C6 (counterexample): for a Priority item with a persisted id and a
scheduled time, the rendered line is not wrapped whole in the bold style:
a line equal to `'\x1b[1m' + ... + '\x1b[0m'` would begin with the bold
escape `'\x1b[1m'`, but this line begins with the underline escape
`'\x1b[4m'` of the id prefix, which `render` attaches outside the bold
wrapper (as it does the dim time suffix). -/
theorem c6_counterexample :
    (Item.renderLine (.mk (some 3) "Buy milk".data .INCOMPLETE
        (some .PRIORITY) (some ⟨2023, 6, 9, 14, 5, 0⟩) none none none [])
        false).take 4 = "\x1b[4m".data ∧
    (Item.renderLine (.mk (some 3) "Buy milk".data .INCOMPLETE
        (some .PRIORITY) (some ⟨2023, 6, 9, 14, 5, 0⟩) none none none [])
        false).take 4 ≠ "\x1b[1m".data := by
  decide

/-- C6 (amended): for a Priority item the bold style wraps the composition
of signifier symbol, status symbol and colored description only; the
underlined id prefix and the dim time suffix are attached outside the bold
wrapper. -/
theorem c6_amended_bold_scope (idv : Nat) (desc : Str) (st : ItemState)
    (t : DateTime) (tc tu : Option DateTime) (pid : Option Nat)
    (ch : List Item) (vm : Bool) :
    Item.renderLine (.mk (some idv) desc st (some .PRIORITY) (some t)
        tc tu pid ch) vm =
      colored (natChars idv) none ["underline".data] ++ " ".data ++
      colored ((if vm then ItemSignifierDictInv .PRIORITY ++ " (".data ++
            ItemSignifier.value .PRIORITY ++ ")".data
          else ItemSignifierDictInv .PRIORITY) ++ " ".data ++
        (if vm then ItemStateDictInv st ++ " (".data ++ st.value ++ ")".data
          else ItemStateDictInv st) ++ " ".data ++
        colored desc (some (ItemStateColor st)) []) none ["bold".data] ++
      " ".data ++ colored (formatTime t) none ["dark".data] := by
  cases vm <;>
    simp [Item.renderLine, Item.id, Item.description, Item.state,
      Item.signifier, Item.time, List.append_assoc]

/-- A string without a newline splits into the single line it is. -/
theorem splitNl_single (s : Str) (h : s.contains '\n' = false) :
    splitNl s = [s] := by
  induction s with
  | nil => rfl
  | cons c rest ih =>
    simp only [List.contains_cons, Bool.or_eq_false_iff] at h
    obtain ⟨hc, hrest⟩ := h
    have hc' : c ≠ '\n' := by
      intro h
      exact absurd h.symm (by simpa using hc)
    simp [splitNl, hc', ih hrest]

/-- `renderLine` satisfies the left-to-right line grammar of spec §4.2. -/
theorem renderLine_eq_specChildlessLine (item : Item) (vm : Bool) :
    item.renderLine vm = specChildlessLine item vm := by
  obtain ⟨id, desc, st, sg, t, tc, tu, pid, ch⟩ := item
  cases sg with
  | none =>
    cases t <;> cases id <;>
      simp [Item.renderLine, specChildlessLine, Item.id, Item.description,
        Item.state, Item.signifier, Item.time, List.append_assoc]
  | some g =>
    cases g <;> cases t <;> cases id <;> cases vm <;>
      simp [Item.renderLine, specChildlessLine, Item.id, Item.description,
        Item.state, Item.signifier, Item.time, List.append_assoc]

/-- C8: a childless item renders as exactly one line matching the spec's
grammar: the underlined id (omitted when the item is unsaved), the
signifier symbol when present, the status symbol, the description colored
by status, and the dim formatted time when present, single-space separated
(with the Priority bold wrapper around the symbol/description group). -/
theorem c8_childless_single_line (item : Item) (sc scc : Option Bool)
    (vm env : Bool) (hch : item.children = [])
    (hnl : (item.renderLine vm).contains '\n' = false) :
    item.render sc scc (some vm) env = specChildlessLine item vm ∧
    splitNl (item.render sc scc (some vm) env) = [specChildlessLine item vm] := by
  obtain ⟨id, desc, st, sg, t, tc, tu, pid, ch⟩ := item
  simp only [Item.children] at hch
  subst hch
  have hrender : Item.render (.mk id desc st sg t tc tu pid []) sc scc
      (some vm) env = Item.renderLine (.mk id desc st sg t tc tu pid []) vm := by
    rw [Item.render]
    simp [Item.renderChildren, joinNl]
  rw [hrender, renderLine_eq_specChildlessLine]
  exact ⟨rfl, by
    rw [← renderLine_eq_specChildlessLine]
    exact splitNl_single _ hnl⟩

/-- C8 (witness): a concrete childless Priority item with id and time. -/
theorem c8_childless_single_line_witness :
    Item.render (.mk (some 3) "Buy milk".data .INCOMPLETE (some .PRIORITY)
        (some ⟨2023, 6, 9, 14, 5, 0⟩) none none none []) none none
        (some false) false =
      specChildlessLine (.mk (some 3) "Buy milk".data .INCOMPLETE
        (some .PRIORITY) (some ⟨2023, 6, 9, 14, 5, 0⟩) none none none [])
        false :=
  (c8_childless_single_line (.mk (some 3) "Buy milk".data .INCOMPLETE
    (some .PRIORITY) (some ⟨2023, 6, 9, 14, 5, 0⟩) none none none [])
    none none false false rfl (by decide)).1

/-- Structural induction over `Item` trees. -/
theorem Item.myInduction (P : Item → Prop)
    (h : ∀ id desc st sg t tc tu pid ch,
      (∀ c ∈ ch, P c) → P (.mk id desc st sg t tc tu pid ch)) :
    ∀ i, P i
  | .mk a b c d e f g p ch =>
    h a b c d e f g p ch (fun x _hx => Item.myInduction P h x)
termination_by i => sizeOf i
decreasing_by
  simp only [Item.mk.sizeOf_spec]
  have := List.sizeOf_lt_of_mem _hx
  omega

/-- The child loop ignores which environment value is threaded through, as
long as every child's rendering does. -/
theorem renderChildren_env_irrelevant (l : List Item) (opts : RenderOpts)
    (e1 e2 : Bool)
    (hl : ∀ c ∈ l, ∀ sc scc v, c.render sc scc (some v) e1 =
      c.render sc scc (some v) e2) :
    Item.renderChildren l opts e1 = Item.renderChildren l opts e2 := by
  induction l with
  | nil => rfl
  | cons c cs ih =>
    rw [Item.renderChildren, Item.renderChildren]
    have hc := hl c (by simp) (some opts.show_children)
      (some opts.show_complete_children) opts.verbose_mode
    have hcs := ih (fun x hx => hl x (by simp [hx]))
    split
    · exact hcs
    · rw [hc, hcs]

/-- C10: the resolved render options are passed unchanged to every
recursive child render.  First, when `verbose_mode` is supplied, the
process-wide verbosity toggle is never consulted (the output is independent
of it); second, omitting `verbose_mode` is the same as supplying the
toggle's value once at the top; third, omitting `show_children` or
`show_complete_children` is the same as supplying their resolved defaults —
so every line of one call's output uses one verbosity setting. -/
theorem c10_options_threading :
    (∀ (i : Item) (sc scc : Option Bool) (v e1 e2 : Bool),
      i.render sc scc (some v) e1 = i.render sc scc (some v) e2) ∧
    (∀ (i : Item) (sc scc : Option Bool) (e : Bool),
      i.render sc scc none e = i.render sc scc (some e) e) ∧
    (∀ (i : Item) (sc scc : Option Bool) (v e : Bool),
      i.render sc scc (some v) e =
        i.render (some (sc.getD true)) (some (scc.getD true)) (some v) e) := by
  refine ⟨?_, ?_, ?_⟩
  · intro i
    induction i using Item.myInduction with
    | h id desc st sg t tc tu pid ch ih =>
      intro sc scc v e1 e2
      rw [Item.render, Item.render]
      have := renderChildren_env_irrelevant ch
        ⟨sc.getD true, scc.getD true, v⟩ e1 e2
        (fun c hc sc' scc' v' => ih c hc sc' scc' v' e1 e2)
      simp only [Option.getD_some]
      rw [this]
  · intro i sc scc e
    obtain ⟨id, desc, st, sg, t, tc, tu, pid, ch⟩ := i
    rw [Item.render, Item.render]
    simp only [Option.getD_some, Option.getD_none]
  · intro i sc scc v e
    obtain ⟨id, desc, st, sg, t, tc, tu, pid, ch⟩ := i
    rw [Item.render, Item.render]
    simp only [Option.getD_some, Option.getD_none]

/-- `splitNl` never returns an empty list of pieces. -/
theorem splitNl_ne_nil (s : Str) : splitNl s ≠ [] := by
  induction s with
  | nil => simp [splitNl]
  | cons c rest ih =>
    by_cases hc : c = '\n'
    · simp [splitNl, hc]
    · simp only [splitNl, if_neg hc]
      cases hrest : splitNl rest with
      | nil => simp
      | cons l ls => simp

/-- Every piece `splitNl` produces is newline-free. -/
theorem splitNl_no_nl (s : Str) : ∀ l ∈ splitNl s, '\n' ∉ l := by
  induction s with
  | nil => simp [splitNl]
  | cons c rest ih =>
    by_cases hc : c = '\n'
    · simp only [splitNl, if_pos hc]
      intro l hl
      rcases List.mem_cons.mp hl with hl | hl
      · simp [hl]
      · exact ih l hl
    · simp only [splitNl, if_neg hc]
      cases hrest : splitNl rest with
      | nil => exact absurd hrest (splitNl_ne_nil rest)
      | cons l0 ls =>
        intro l hl
        rcases List.mem_cons.mp hl with hl | hl
        · subst hl
          intro hm
          rcases List.mem_cons.mp hm with hm | hm
          · exact hc hm.symm
          · exact ih l0 (by simp [hrest]) hm
        · exact ih l (by rw [hrest]; exact List.mem_cons_of_mem _ hl)

/-- A newline-free string is a single piece. -/
theorem splitNl_of_not_mem (s : Str) (h : '\n' ∉ s) : splitNl s = [s] := by
  induction s with
  | nil => rfl
  | cons c rest ih =>
    have hc : c ≠ '\n' := fun hc => h (by simp [hc])
    have hrest := ih (fun hm => h (by simp [hm]))
    simp [splitNl, hc, hrest]

/-- Splitting distributes over a newline join point. -/
theorem splitNl_append (a b : Str) :
    splitNl (a ++ '\n' :: b) = splitNl a ++ splitNl b := by
  induction a with
  | nil => simp [splitNl]
  | cons c rest ih =>
    by_cases hc : c = '\n'
    · simp [splitNl, hc, ih]
    · rw [List.cons_append]
      cases hrest : splitNl rest with
      | nil => exact absurd hrest (splitNl_ne_nil rest)
      | cons l ls =>
        simp only [splitNl, if_neg hc, ih, hrest, List.cons_append]

/-- Splitting a join is the concatenation of the splits. -/
theorem splitNl_joinNl_flat (b : Str) (bs : List Str) :
    splitNl (joinNl (b :: bs)) = splitNl b ++ bs.flatMap splitNl := by
  induction bs generalizing b with
  | nil => simp [joinNl]
  | cons b2 bs2 ih =>
    show splitNl (b ++ '\n' :: joinNl (b2 :: bs2)) = _
    rw [splitNl_append, ih b2]
    simp

/-- Flat-mapping `splitNl` over newline-free pieces changes nothing. -/
theorem flatMap_splitNl_id (ls : List Str) (h : ∀ l ∈ ls, '\n' ∉ l) :
    ls.flatMap splitNl = ls := by
  induction ls with
  | nil => rfl
  | cons x xs ih =>
    rw [List.flatMap_cons, splitNl_of_not_mem x (h x (by simp))]
    rw [ih (fun l hl => h l (by simp [hl]))]
    simp

/-- Splitting inverts joining on nonempty lists of newline-free pieces. -/
theorem splitNl_joinNl (ls : List Str) (hne : ls ≠ [])
    (h : ∀ l ∈ ls, '\n' ∉ l) : splitNl (joinNl ls) = ls := by
  cases ls with
  | nil => exact absurd rfl hne
  | cons b bs =>
    rw [splitNl_joinNl_flat]
    rw [splitNl_of_not_mem b (h b (by simp))]
    rw [flatMap_splitNl_id bs (fun l hl => h l (by simp [hl]))]
    simp

/-- Child-list version of the depth-shift property, given it holds for the
members. -/
theorem prunedList_shift_of (l : List Item) (d k : Nat)
    (hl : ∀ c ∈ l, ∀ d' k', Item.prunedNodesD (d' + k') c =
      (Item.prunedNodesD d' c).map (fun p => (p.1 + k', p.2))) :
    Item.prunedList (d + k) l =
      (Item.prunedList d l).map (fun p => (p.1 + k, p.2)) := by
  induction l with
  | nil => rfl
  | cons c cs ih =>
    rw [Item.prunedList, Item.prunedList, List.map_append]
    rw [ih (fun x hx => hl x (by simp [hx]))]
    by_cases hc : c.state = ItemState.COMPLETE
    · simp [hc]
    · simp only [if_neg hc]
      rw [hl c (by simp) d k]

/-- Depth is a pure offset: the pruned nodes at depth `d + k` are those at
depth `d`, shifted by `k`. -/
theorem prunedNodesD_shift (i : Item) : ∀ d k,
    Item.prunedNodesD (d + k) i =
      (Item.prunedNodesD d i).map (fun p => (p.1 + k, p.2)) := by
  induction i using Item.myInduction with
  | h id desc st sg t tc tu pid ch ihm =>
    intro d k
    rw [Item.prunedNodesD, Item.prunedNodesD]
    simp only [List.map_cons]
    have : d + k + 1 = (d + 1) + k := by omega
    rw [this, prunedList_shift_of ch (d + 1) k (fun c hc => ihm c hc)]

/-- The items in the pruned list do not depend on the depth tag. -/
theorem prunedNodesD_snd (i : Item) (d : Nat) :
    (Item.prunedNodesD d i).map Prod.snd = (Item.prunedNodesD 0 i).map Prod.snd := by
  have := prunedNodesD_shift i 0 d
  simp only [Nat.zero_add] at this
  rw [this, List.map_map]
  rfl

/-- Membership in the pruned child list, given sub-membership behaves. -/
theorem mem_prunedList (l : List Item) (d : Nat) (x : Item) :
    x ∈ (Item.prunedList d l).map Prod.snd ↔
      ∃ c ∈ l, c.state ≠ ItemState.COMPLETE ∧
        x ∈ (Item.prunedNodesD d c).map Prod.snd := by
  induction l with
  | nil => simp [Item.prunedList]
  | cons c cs ih =>
    rw [Item.prunedList, List.map_append, List.mem_append, ih]
    by_cases hc : c.state = ItemState.COMPLETE
    · simp only [if_pos hc]
      constructor
      · rintro (h | ⟨c', hc', hs', hx'⟩)
        · simp at h
        · exact ⟨c', by simp [hc'], hs', hx'⟩
      · rintro ⟨c', hc', hs', hx'⟩
        rcases List.mem_cons.mp hc' with h | h
        · exact absurd (h ▸ hc) hs'
        · exact Or.inr ⟨c', h, hs', hx'⟩
    · simp only [if_neg hc]
      constructor
      · rintro (h | ⟨c', hc', hs', hx'⟩)
        · exact ⟨c, by simp, hc, h⟩
        · exact ⟨c', by simp [hc'], hs', hx'⟩
      · rintro ⟨c', hc', hs', hx'⟩
        rcases List.mem_cons.mp hc' with h | h
        · exact Or.inl (h ▸ hx')
        · exact Or.inr ⟨c', h, hs', hx'⟩

/-- The pruned node set is exactly reachability through non-`COMPLETE`
children. -/
theorem mem_prunedNodes_iff_reach (i : Item) : ∀ x : Item,
    x ∈ (Item.prunedNodesD 0 i).map Prod.snd ↔ ReachNC i x := by
  induction i using Item.myInduction with
  | h id desc st sg t tc tu pid ch ihm =>
    intro x
    rw [Item.prunedNodesD]
    simp only [List.map_cons, List.mem_cons]
    rw [mem_prunedList]
    constructor
    · rintro (h | ⟨c, hc, hs, hx⟩)
      · exact h ▸ ReachNC.refl _
      · rw [prunedNodesD_snd, ihm c hc] at hx
        exact ReachNC.step _ c x (by simpa [Item.children] using hc) hs hx
    · intro h
      cases h with
      | refl => exact Or.inl rfl
      | step _ c _ hc hs hr =>
        refine Or.inr ⟨c, by simpa [Item.children] using hc, hs, ?_⟩
        rw [prunedNodesD_snd, ihm c (by simpa [Item.children] using hc)]
        exact hr

/-- Prefixing two spaces is prepending to the indentation. -/
theorem indent_shift (n : Nat) (s : Str) :
    "  ".data ++ (List.replicate n ' ' ++ s) = List.replicate (n + 2) ' ' ++ s := by
  simp [List.replicate_succ]

/-- Omitting `show_children` is supplying its default. -/
theorem render_sc_default (i : Item) (scc vmo : Option Bool) (env : Bool) :
    i.render none scc vmo env = i.render (some true) scc vmo env := by
  obtain ⟨id, desc, st, sg, t, tc, tu, pid, ch⟩ := i
  rw [Item.render, Item.render]
  simp only [Option.getD_some, Option.getD_none]

/-- The flattened split of the rendered child blocks is the pruned child
node list's lines, under `show_complete_children = false`. -/
theorem renderChildren_split (l : List Item) (vm env : Bool)
    (hlok : Item.linesOkList vm l = true)
    (hl : ∀ c ∈ l, ∀ env', Item.linesOk vm c = true →
      splitNl (c.render (some true) (some false) (some vm) env') =
        (Item.prunedNodesD 0 c).map
          (fun p => List.replicate (2 * p.1) ' ' ++ p.2.renderLine vm)) :
    (Item.renderChildren l ⟨true, false, vm⟩ env).flatMap splitNl =
      (Item.prunedList 1 l).map
        (fun p => List.replicate (2 * p.1) ' ' ++ p.2.renderLine vm) := by
  induction l with
  | nil => rfl
  | cons c cs ih =>
    rw [Item.linesOkList, Bool.and_eq_true] at hlok
    obtain ⟨hc1, hcs⟩ := hlok
    rw [Item.renderChildren, Item.prunedList]
    by_cases hc : c.state = ItemState.COMPLETE
    · rw [if_pos (by exact ⟨hc, by simp⟩), if_pos hc]
      rw [ih hcs (fun x hx => hl x (by simp [hx]))]
      simp
    · rw [if_neg (by simp [hc]), if_neg hc]
      rw [List.flatMap_cons, List.map_append]
      have hsub := hl c (by simp) env hc1
      have hpieces := splitNl_no_nl
        (c.render (some true) (some false) (some vm) env)
      rw [splitNl_joinNl _ (by
          simp only [ne_eq, List.map_eq_nil_iff]
          exact splitNl_ne_nil _)
        (by
          intro piece hpiece
          rcases List.mem_map.mp hpiece with ⟨orig, horig, hEq⟩
          subst hEq
          intro hm
          rcases List.mem_append.mp hm with hm | hm
          · simp at hm
          · exact hpieces orig horig hm)]
      rw [hsub]
      rw [ih hcs (fun x hx => hl x (by simp [hx]))]
      congr 1
      have hshift := prunedNodesD_shift c 0 1
      simp only [Nat.zero_add] at hshift
      rw [hshift, List.map_map, List.map_map]
      refine List.map_congr_left ?_
      intro p _hp
      show "  ".data ++ (List.replicate (2 * p.1) ' ' ++ p.2.renderLine vm) = _
      rw [indent_shift]
      simp only [Function.comp_apply]
      have h2p : 2 * (p.1 + 1) = 2 * p.1 + 2 := by omega
      rw [h2p]

/-- Under `show_complete_children = false` the lines of `render` are
exactly the pruned nodes' lines, indented two spaces per depth. -/
theorem render_lines_pruned (i : Item) : ∀ (vm env : Bool),
    Item.linesOk vm i = true →
    splitNl (i.render (some true) (some false) (some vm) env) =
      (Item.prunedNodesD 0 i).map
        (fun p => List.replicate (2 * p.1) ' ' ++ p.2.renderLine vm) := by
  induction i using Item.myInduction with
  | h id desc st sg t tc tu pid ch ihm =>
    intro vm env hok
    rw [Item.linesOk, Bool.and_eq_true] at hok
    obtain ⟨h1, h2⟩ := hok
    have hnl : '\n' ∉ Item.renderLine (.mk id desc st sg t tc tu pid ch) vm := by
      simp_all
    rw [Item.render]
    simp only [Option.getD_some, eq_self_iff_true, ite_true]
    rw [splitNl_joinNl_flat, splitNl_of_not_mem _ hnl]
    rw [renderChildren_split ch vm env h2
      (fun c hc env' hcok => ihm c hc vm env' hcok)]
    rw [Item.prunedNodesD, List.map_cons]
    simp

/-- C3: with `show_complete_children = false`, the lines `render` emits are
exactly those of the nodes reachable from the root through non-`COMPLETE`
children (each indented two spaces per depth): no `COMPLETE` child nor any
descendant of one is ever emitted — the suppression is recursive — while
the root and every node whose ancestor path avoids `COMPLETE` children is
still rendered. -/
theorem c3_complete_children_suppressed (item : Item) (vm env : Bool)
    (hok : Item.linesOk vm item = true) :
    splitNl (item.render none (some false) (some vm) env) =
      (Item.prunedNodesD 0 item).map
        (fun p => List.replicate (2 * p.1) ' ' ++ p.2.renderLine vm) ∧
    (∀ x : Item, x ∈ (Item.prunedNodesD 0 item).map Prod.snd ↔ ReachNC item x) := by
  constructor
  · rw [render_sc_default]
    exact render_lines_pruned item vm env hok
  · exact mem_prunedNodes_iff_reach item

/-- C3 (witness): a tree whose root has a `COMPLETE` child (with its own
hidden descendant) and an `INCOMPLETE` child with a descendant. -/
theorem c3_complete_children_suppressed_witness :
    splitNl ((Item.mk (some 1) "root".data .NOTE none none none none none
        [.mk (some 2) "done".data .COMPLETE none none none none none
          [.mk (some 3) "hidden".data .INCOMPLETE none none none none none []],
         .mk (some 4) "open".data .INCOMPLETE none none none none none
          [.mk (some 5) "kid".data .EVENT none none none none none []]]).render
        none (some false) (some false) false) =
      (Item.prunedNodesD 0 (Item.mk (some 1) "root".data .NOTE none none none
        none none
        [.mk (some 2) "done".data .COMPLETE none none none none none
          [.mk (some 3) "hidden".data .INCOMPLETE none none none none none []],
         .mk (some 4) "open".data .INCOMPLETE none none none none none
          [.mk (some 5) "kid".data .EVENT none none none none none []]])).map
        (fun p => List.replicate (2 * p.1) ' ' ++ p.2.renderLine false) :=
  (c3_complete_children_suppressed
    (Item.mk (some 1) "root".data .NOTE none none none none none
      [.mk (some 2) "done".data .COMPLETE none none none none none
        [.mk (some 3) "hidden".data .INCOMPLETE none none none none none []],
       .mk (some 4) "open".data .INCOMPLETE none none none none none
        [.mk (some 5) "kid".data .EVENT none none none none none []]])
    false false
    (by simp only [Item.linesOk, Item.linesOkList]; decide)).1

/-- `digitVal?` inverts `digitChar` on decimal digits. -/
theorem digitVal?_digitChar (a : Nat) (h : a < 10) :
    digitVal? (digitChar a) = some a := by
  interval_cases a <;> decide

/-- `parse2` reads back a two-digit zero-padded number. -/
theorem parse2_pad2 (v : Nat) (h : v < 100) (rest : Str) :
    parse2 (pad2 v ++ rest) = some (v, rest) := by
  have h1 : v / 10 < 10 := by omega
  have h2 : v % 10 < 10 := by omega
  show parse2 (digitChar (v / 10) :: digitChar (v % 10) :: rest) = some (v, rest)
  simp only [parse2, digitVal?_digitChar _ h1, digitVal?_digitChar _ h2]
  have hv : 10 * (v / 10) + v % 10 = v := by omega
  rw [hv]

/-- `parse4` reads back a four-digit number. -/
theorem parse4_pad4 (y : Nat) (h : y ≤ 9999) (rest : Str) :
    parse4 (pad4 y ++ rest) = some (y, rest) := by
  have h1 : y / 1000 < 10 := by omega
  have h2 : y / 100 % 10 < 10 := by omega
  have h3 : y / 10 % 10 < 10 := by omega
  have h4 : y % 10 < 10 := by omega
  show parse4 (digitChar (y / 1000) :: digitChar (y / 100 % 10) ::
    digitChar (y / 10 % 10) :: digitChar (y % 10) :: rest) = some (y, rest)
  simp only [parse4, digitVal?_digitChar _ h1, digitVal?_digitChar _ h2,
    digitVal?_digitChar _ h3, digitVal?_digitChar _ h4]
  show some (1000 * (y / 1000) + 100 * (y / 100 % 10) + 10 * (y / 10 % 10) +
    y % 10, rest) = some (y, rest)
  have hy : 1000 * (y / 1000) + 100 * (y / 100 % 10) + 10 * (y / 10 % 10) +
      y % 10 = y := by
    omega
  rw [hy]

/-- Any weekday name is consumed by the `%A` matcher (its value is
discarded by `strptime`). -/
theorem matchName_weekdayName (k : Nat) (rest : Str) :
    ∃ j, matchName weekdayNames (weekdayName k ++ rest) = some (j, rest) := by
  rcases k with _ | _ | _ | _ | _ | _ | k
  · exact ⟨6, rfl⟩
  · exact ⟨7, rfl⟩
  · exact ⟨1, rfl⟩
  · exact ⟨2, rfl⟩
  · exact ⟨3, rfl⟩
  · exact ⟨4, rfl⟩
  · exact ⟨5, rfl⟩

/-- The `%B` matcher recovers the month number from its name. -/
theorem matchName_monthName (m : Nat) (h1 : 1 ≤ m) (h2 : m ≤ 12) (rest : Str) :
    matchName monthNames (monthName m ++ rest) = some (m, rest) := by
  interval_cases m <;> rfl

/-- `%I` always shows an hour between 1 and 12. -/
theorem hour12_bounds (h : Nat) : 1 ≤ hour12 h ∧ hour12 h ≤ 12 := by
  unfold hour12
  split <;> omega

/-- Every month has at most 31 days. -/
theorem daysInMonth_le_31 (y m : Nat) : daysInMonth y m ≤ 31 := by
  unfold daysInMonth
  split <;> (try split) <;> omega

/-- Converting back a 12-hour clock reading marked AM. -/
theorem hourConvAM (h : Nat) (hlt : h < 12) :
    (if hour12 h = 12 then 0 else hour12 h) = h := by
  interval_cases h <;> decide

/-- Converting back a 12-hour clock reading marked PM. -/
theorem hourConvPM (h : Nat) (h1 : 12 ≤ h) (h2 : h < 24) :
    (if hour12 h = 12 then 12 else hour12 h + 12) = h := by
  interval_cases h <;> decide

/-- One `strptime` step: the leading `%A` of `TIME_FORMAT`. -/
theorem strptimeAux_stepA (fr s rest : Str) (acc : TParts) (j : Nat)
    (h : matchName weekdayNames s = some (j, rest)) :
    strptimeAux ('%' :: 'A' :: fr) s acc = strptimeAux fr rest acc := by
  have e : strptimeAux ('%' :: 'A' :: fr) s acc =
      match matchName weekdayNames s with
      | some (_, rest) => strptimeAux fr rest acc
      | none => none := rfl
  rw [e, h]

/-- One `strptime` step: the literal `", "` followed by `%B`. -/
theorem strptimeAux_stepB (fr s rest : Str) (acc : TParts) (m : Nat)
    (h : matchName monthNames s = some (m, rest)) :
    strptimeAux (',' :: ' ' :: '%' :: 'B' :: fr) (',' :: ' ' :: s) acc =
      strptimeAux fr rest { acc with month := m } := by
  have e : strptimeAux (',' :: ' ' :: '%' :: 'B' :: fr) (',' :: ' ' :: s) acc =
      match matchName monthNames s with
      | some (m, rest) => strptimeAux fr rest { acc with month := m }
      | none => none := rfl
  rw [e, h]

/-- One `strptime` step: the literal `" "` followed by `%d`. -/
theorem strptimeAux_stepd (fr s rest : Str) (acc : TParts) (v : Nat)
    (h : parse2 s = some (v, rest)) (hv : 1 ≤ v ∧ v ≤ 31) :
    strptimeAux (' ' :: '%' :: 'd' :: fr) (' ' :: s) acc =
      strptimeAux fr rest { acc with day := v } := by
  have e : strptimeAux (' ' :: '%' :: 'd' :: fr) (' ' :: s) acc =
      match parse2 s with
      | some (v, rest) =>
        if 1 ≤ v ∧ v ≤ 31 then strptimeAux fr rest { acc with day := v }
        else none
      | none => none := rfl
  rw [e, h]
  show (if 1 ≤ v ∧ v ≤ 31 then strptimeAux fr rest { acc with day := v }
    else none) = _
  exact if_pos hv

/-- One `strptime` step: the literal `", "` followed by `%Y`. -/
theorem strptimeAux_stepY (fr s rest : Str) (acc : TParts) (v : Nat)
    (h : parse4 s = some (v, rest)) :
    strptimeAux (',' :: ' ' :: '%' :: 'Y' :: fr) (',' :: ' ' :: s) acc =
      strptimeAux fr rest { acc with year := v } := by
  have e : strptimeAux (',' :: ' ' :: '%' :: 'Y' :: fr) (',' :: ' ' :: s) acc =
      match parse4 s with
      | some (v, rest) => strptimeAux fr rest { acc with year := v }
      | none => none := rfl
  rw [e, h]

/-- One `strptime` step: the literal `" at "` followed by `%I`. -/
theorem strptimeAux_stepI (fr s rest : Str) (acc : TParts) (v : Nat)
    (h : parse2 s = some (v, rest)) (hv : 1 ≤ v ∧ v ≤ 12) :
    strptimeAux (' ' :: 'a' :: 't' :: ' ' :: '%' :: 'I' :: fr)
      (' ' :: 'a' :: 't' :: ' ' :: s) acc =
      strptimeAux fr rest { acc with hr12 := v } := by
  have e : strptimeAux (' ' :: 'a' :: 't' :: ' ' :: '%' :: 'I' :: fr)
      (' ' :: 'a' :: 't' :: ' ' :: s) acc =
      match parse2 s with
      | some (v, rest) =>
        if 1 ≤ v ∧ v ≤ 12 then strptimeAux fr rest { acc with hr12 := v }
        else none
      | none => none := rfl
  rw [e, h]
  show (if 1 ≤ v ∧ v ≤ 12 then strptimeAux fr rest { acc with hr12 := v }
    else none) = _
  exact if_pos hv

/-- One `strptime` step: the literal `":"` followed by `%M`. -/
theorem strptimeAux_stepM (fr s rest : Str) (acc : TParts) (v : Nat)
    (h : parse2 s = some (v, rest)) (hv : v ≤ 59) :
    strptimeAux (':' :: '%' :: 'M' :: fr) (':' :: s) acc =
      strptimeAux fr rest { acc with minute := v } := by
  have e : strptimeAux (':' :: '%' :: 'M' :: fr) (':' :: s) acc =
      match parse2 s with
      | some (v, rest) =>
        if v ≤ 59 then strptimeAux fr rest { acc with minute := v }
        else none
      | none => none := rfl
  rw [e, h]
  show (if v ≤ 59 then strptimeAux fr rest { acc with minute := v }
    else none) = _
  exact if_pos hv

/-- One `strptime` step: the literal `" "` followed by `%p`, matching AM. -/
theorem strptimeAux_stepPAM (fr s rest : Str) (acc : TParts)
    (h : dropPfx "AM".data s = some rest) :
    strptimeAux (' ' :: '%' :: 'p' :: fr) (' ' :: s) acc =
      strptimeAux fr rest { acc with isPM := false } := by
  have e : strptimeAux (' ' :: '%' :: 'p' :: fr) (' ' :: s) acc =
      match dropPfx "AM".data s with
      | some rest => strptimeAux fr rest { acc with isPM := false }
      | none =>
        match dropPfx "PM".data s with
        | some rest => strptimeAux fr rest { acc with isPM := true }
        | none => none := rfl
  rw [e, h]

/-- One `strptime` step: the literal `" "` followed by `%p`, matching PM. -/
theorem strptimeAux_stepPPM (fr s rest : Str) (acc : TParts)
    (hAM : dropPfx "AM".data s = none)
    (hPM : dropPfx "PM".data s = some rest) :
    strptimeAux (' ' :: '%' :: 'p' :: fr) (' ' :: s) acc =
      strptimeAux fr rest { acc with isPM := true } := by
  have e : strptimeAux (' ' :: '%' :: 'p' :: fr) (' ' :: s) acc =
      match dropPfx "AM".data s with
      | some rest => strptimeAux fr rest { acc with isPM := false }
      | none =>
        match dropPfx "PM".data s with
        | some rest => strptimeAux fr rest { acc with isPM := true }
        | none => none := rfl
  rw [e, hAM, hPM]


/-- Formatting a valid modelled datetime with `TIME_FORMAT` and parsing the
result back recovers the datetime with its seconds zeroed (the format has
no seconds field). -/
theorem strptime_strftime_trunc (y mo dd hh mi ss : Nat)
    (hv : validDT ⟨y, mo, dd, hh, mi, ss⟩ = true) :
    strptime TIME_FORMAT (strftime TIME_FORMAT ⟨y, mo, dd, hh, mi, ss⟩) =
      some ⟨y, mo, dd, hh, mi, 0⟩ := by
  simp only [validDT, Bool.and_eq_true, decide_eq_true_eq] at hv
  obtain ⟨⟨⟨⟨⟨⟨⟨⟨hy1, hy2⟩, hm1⟩, hm2⟩, hd1⟩, hd2⟩, hhh⟩, hmi⟩, _hss⟩ := hv
  have hd31 : dd ≤ 31 := le_trans hd2 (daysInMonth_le_31 y mo)
  have e0 : strftime TIME_FORMAT ⟨y, mo, dd, hh, mi, ss⟩ =
      weekdayName (dayOfWeek y mo dd) ++
      (',' :: ' ' :: (monthName mo ++ ' ' :: (pad2 dd ++ ',' :: ' ' :: (pad4 y ++ ' ' :: 'a' :: 't' :: ' ' :: (pad2 (hour12 hh) ++ ':' :: (pad2 mi ++ ' ' :: (((if hh < 12 then "AM".data else "PM".data)) ++ []))))))) := rfl
  by_cases hAMPM : hh < 12
  · rw [if_pos hAMPM] at e0
    obtain ⟨j, hwd⟩ := matchName_weekdayName (dayOfWeek y mo dd)
      (',' :: ' ' :: (monthName mo ++ ' ' :: (pad2 dd ++ ',' :: ' ' :: (pad4 y ++ ' ' :: 'a' :: 't' :: ' ' :: (pad2 (hour12 hh) ++ ':' :: (pad2 mi ++ ' ' :: ("AM".data ++ [])))))))
    have hAux : strptimeAux TIME_FORMAT
        (strftime TIME_FORMAT ⟨y, mo, dd, hh, mi, ss⟩) ({} : TParts) =
        some ⟨y, mo, dd, hour12 hh, mi, false⟩ := by
      rw [e0]
      rw [show TIME_FORMAT = '%' :: 'A' :: ", %B %d, %Y at %I:%M %p".data
        from rfl]
      rw [strptimeAux_stepA _ _ _ _ j hwd]
      rw [show (", %B %d, %Y at %I:%M %p".data : Str) =
        ',' :: ' ' :: '%' :: 'B' :: " %d, %Y at %I:%M %p".data from rfl]
      rw [strptimeAux_stepB _ _ _ _ mo (matchName_monthName mo hm1 hm2 _)]
      rw [show (" %d, %Y at %I:%M %p".data : Str) =
        ' ' :: '%' :: 'd' :: ", %Y at %I:%M %p".data from rfl]
      rw [strptimeAux_stepd _ _ _ _ dd (parse2_pad2 dd (by omega) _)
        (⟨hd1, hd31⟩ : 1 ≤ dd ∧ dd ≤ 31)]
      rw [show (", %Y at %I:%M %p".data : Str) =
        ',' :: ' ' :: '%' :: 'Y' :: " at %I:%M %p".data from rfl]
      rw [strptimeAux_stepY _ _ _ _ y (parse4_pad4 y (by omega) _)]
      rw [show (" at %I:%M %p".data : Str) =
        ' ' :: 'a' :: 't' :: ' ' :: '%' :: 'I' :: ":%M %p".data from rfl]
      rw [strptimeAux_stepI _ _ _ _ _
        (parse2_pad2 (hour12 hh) (by have := hour12_bounds hh; omega) _)
        (hour12_bounds hh)]
      rw [show (":%M %p".data : Str) = ':' :: '%' :: 'M' :: " %p".data
        from rfl]
      rw [strptimeAux_stepM _ _ _ _ mi (parse2_pad2 mi (by omega) _)
        (by omega)]
      rw [show (" %p".data : Str) = ' ' :: '%' :: 'p' :: ([] : Str) from rfl]
      rw [strptimeAux_stepPAM _ _ _ _
        (rfl : dropPfx "AM".data ("AM".data ++ []) = some [])]
      exact rfl
    unfold strptime
    rw [hAux]
    show (if 1 ≤ y ∧ dd ≤ daysInMonth y mo then
        some (⟨y, mo, dd, if hour12 hh = 12 then 0 else hour12 hh, mi,
          0⟩ : DateTime)
      else none) = _
    rw [if_pos ⟨by omega, hd2⟩, hourConvAM hh hAMPM]
  · rw [if_neg hAMPM] at e0
    obtain ⟨j, hwd⟩ := matchName_weekdayName (dayOfWeek y mo dd)
      (',' :: ' ' :: (monthName mo ++ ' ' :: (pad2 dd ++ ',' :: ' ' :: (pad4 y ++ ' ' :: 'a' :: 't' :: ' ' :: (pad2 (hour12 hh) ++ ':' :: (pad2 mi ++ ' ' :: ("PM".data ++ [])))))))
    have hAux : strptimeAux TIME_FORMAT
        (strftime TIME_FORMAT ⟨y, mo, dd, hh, mi, ss⟩) ({} : TParts) =
        some ⟨y, mo, dd, hour12 hh, mi, true⟩ := by
      rw [e0]
      rw [show TIME_FORMAT = '%' :: 'A' :: ", %B %d, %Y at %I:%M %p".data
        from rfl]
      rw [strptimeAux_stepA _ _ _ _ j hwd]
      rw [show (", %B %d, %Y at %I:%M %p".data : Str) =
        ',' :: ' ' :: '%' :: 'B' :: " %d, %Y at %I:%M %p".data from rfl]
      rw [strptimeAux_stepB _ _ _ _ mo (matchName_monthName mo hm1 hm2 _)]
      rw [show (" %d, %Y at %I:%M %p".data : Str) =
        ' ' :: '%' :: 'd' :: ", %Y at %I:%M %p".data from rfl]
      rw [strptimeAux_stepd _ _ _ _ dd (parse2_pad2 dd (by omega) _)
        (⟨hd1, hd31⟩ : 1 ≤ dd ∧ dd ≤ 31)]
      rw [show (", %Y at %I:%M %p".data : Str) =
        ',' :: ' ' :: '%' :: 'Y' :: " at %I:%M %p".data from rfl]
      rw [strptimeAux_stepY _ _ _ _ y (parse4_pad4 y (by omega) _)]
      rw [show (" at %I:%M %p".data : Str) =
        ' ' :: 'a' :: 't' :: ' ' :: '%' :: 'I' :: ":%M %p".data from rfl]
      rw [strptimeAux_stepI _ _ _ _ _
        (parse2_pad2 (hour12 hh) (by have := hour12_bounds hh; omega) _)
        (hour12_bounds hh)]
      rw [show (":%M %p".data : Str) = ':' :: '%' :: 'M' :: " %p".data
        from rfl]
      rw [strptimeAux_stepM _ _ _ _ mi (parse2_pad2 mi (by omega) _)
        (by omega)]
      rw [show (" %p".data : Str) = ' ' :: '%' :: 'p' :: ([] : Str) from rfl]
      rw [strptimeAux_stepPPM _ _ _ _
        (rfl : dropPfx "AM".data ("PM".data ++ []) = none)
        (rfl : dropPfx "PM".data ("PM".data ++ []) = some [])]
      exact rfl
    unfold strptime
    rw [hAux]
    show (if 1 ≤ y ∧ dd ≤ daysInMonth y mo then
        some (⟨y, mo, dd, if hour12 hh = 12 then 12 else hour12 hh + 12, mi,
          0⟩ : DateTime)
      else none) = _
    rw [if_pos ⟨by omega, hd2⟩, hourConvPM hh (by omega) hhh]

/-- `ItemState(s)` inverts `.value`. -/
theorem ItemState_ofValue_value (st : ItemState) :
    ItemState.ofValue? st.value = some st := by
  cases st <;> rfl

/-- Weekday names are never empty. -/
theorem weekdayName_ne_nil (k : Nat) : weekdayName k ≠ [] := by
  rcases k with _ | _ | _ | _ | _ | _ | k
  · decide
  · decide
  · decide
  · decide
  · decide
  · decide
  · show ("Friday".data : Str) ≠ []
    decide


/-- A formatted time is never the empty (falsy) string. -/
theorem formatTime_ne_nil (d : DateTime) : formatTime d ≠ [] := by
  obtain ⟨y, mo, dd, hh, mi, ss⟩ := d
  have e : formatTime ⟨y, mo, dd, hh, mi, ss⟩ =
      weekdayName (dayOfWeek y mo dd) ++
      (',' :: ' ' :: (monthName mo ++ ' ' :: (pad2 dd ++ ',' :: ' ' :: (pad4 y ++ ' ' :: 'a' :: 't' :: ' ' :: (pad2 (hour12 hh) ++ ':' :: (pad2 mi ++ ' ' :: (((if hh < 12 then "AM".data else "PM".data)) ++ []))))))) := rfl
  rw [e]
  simp [List.append_eq_nil]

/-- `__from_time` inverts `__format_time` on valid whole-minute
datetimes. -/
theorem fromTime_formatTime (d : DateTime) (hv : validDT d = true)
    (h0 : d.second = 0) :
    fromTime (some (formatTime d)) = .ok (some d) := by
  obtain ⟨y, mo, dd, hh, mi, ss⟩ := d
  simp only at h0
  subst h0
  show (if formatTime ⟨y, mo, dd, hh, mi, 0⟩ = [] then
      PyResult.ok none
    else
      match strptime TIME_FORMAT (formatTime ⟨y, mo, dd, hh, mi, 0⟩) with
      | some t => PyResult.ok (some t)
      | none => PyResult.error (.valueError
          ("time data does not match format".data))) = PyResult.ok (some _)
  rw [if_neg (formatTime_ne_nil _)]
  rw [show formatTime ⟨y, mo, dd, hh, mi, 0⟩ =
    strftime TIME_FORMAT ⟨y, mo, dd, hh, mi, 0⟩ from rfl]
  rw [strptime_strftime_trunc y mo dd hh mi 0 hv]

/-- The `signifier` argument round-trips. -/
theorem sigFromDict_map_value (sg : Option ItemSignifier) :
    sigFromDict (sg.map ItemSignifier.value) = .ok sg := by
  cases sg with
  | none => rfl
  | some g => cases g <;> rfl

/-- C1 (amended): for an item with a persisted id whose timestamps are
valid whole-minute datetimes, `from_dict (as_dict item)` succeeds and
reproduces every field — present optional fields keep their values, absent
ones stay absent (the reconstructed item has no children, which are not
serialized).  The amendment excludes items without an id (their export
lacks the required `id` key, so import raises `KeyError`) and sub-minute
timestamp precision (the serialization format has no seconds, so seconds
are truncated to zero). -/
theorem c1_amended_roundtrip (i : Nat) (desc : Str) (st : ItemState)
    (sg : Option ItemSignifier) (t tc tu : Option DateTime)
    (pid : Option Nat) (ch : List Item)
    (h1 : dtOk t = true) (h2 : dtOk tc = true) (h3 : dtOk tu = true) :
    Item.from_dict (Item.as_dict (.mk (some i) desc st sg t tc tu pid ch)) =
      .ok (.mk (some i) desc st sg t tc tu pid []) := by
  have hT : ∀ (x : Option DateTime), dtOk x = true →
      fromTime (x.map formatTime) = .ok x := by
    intro x hx
    cases x with
    | none => rfl
    | some d =>
      simp only [dtOk, Bool.and_eq_true, beq_iff_eq] at hx
      exact fromTime_formatTime d hx.1 hx.2
  simp only [Item.as_dict, Item.id, Item.description, Item.state,
    Item.signifier, Item.time, Item.time_created, Item.time_updated,
    Item.parent_id, Item.from_dict]
  rw [ItemState_ofValue_value, sigFromDict_map_value,
    hT t h1, hT tc h2, hT tu h3]

/-- C1 (witness): a concrete item exercising every optional field. -/
theorem c1_amended_roundtrip_witness :
    Item.from_dict (Item.as_dict (.mk (some 7) "buy milk".data .EVENT
      (some .INSPIRATION) (some ⟨2023, 6, 9, 14, 5, 0⟩) none
      (some ⟨2024, 2, 29, 23, 59, 0⟩) (some 3) [])) =
      .ok (.mk (some 7) "buy milk".data .EVENT (some .INSPIRATION)
        (some ⟨2023, 6, 9, 14, 5, 0⟩) none (some ⟨2024, 2, 29, 23, 59, 0⟩)
        (some 3) []) :=
  c1_amended_roundtrip 7 "buy milk".data .EVENT (some .INSPIRATION)
    (some ⟨2023, 6, 9, 14, 5, 0⟩) none (some ⟨2024, 2, 29, 23, 59, 0⟩)
    (some 3) [] (by decide) (by decide) (by decide)

/-- C1 (counterexample): the round trip is not the identity on all
present fields.  A scheduled time with a nonzero seconds component comes
back truncated to the minute (`TIME_FORMAT` has no seconds field), and an
item without an id (unsaved) fails to import with `KeyError('id')` because
`as_dict` dropped the `id` key. -/
theorem c1_counterexample :
    (Item.from_dict (Item.as_dict (.mk (some 7) "x".data .EVENT none
        (some ⟨2023, 6, 9, 14, 5, 30⟩) none none none []))).map Item.time =
      .ok (some ⟨2023, 6, 9, 14, 5, 0⟩) ∧
    (some (⟨2023, 6, 9, 14, 5, 30⟩ : DateTime) ≠
      some (⟨2023, 6, 9, 14, 5, 0⟩ : DateTime)) ∧
    (Item.from_dict (Item.as_dict (.mk none "x".data .EVENT none none none
        none none []))).map Item.time = .error (.keyError "id".data) := by
  refine ⟨?_, by decide, by decide⟩
  decide
